import Mathlib

/-!
Verification of the audio codec layer and the UI state handlers of the
Bangla Language Bridge application.

The embedding models, byte for byte, the pure functions of `src/utils.ts`
(`decode`, `decodeAudioData`, `pcmToWavBlob`) and, as explicit state
transformers, the React handlers of `src/App.tsx`
(`handlePlayAudio`, `mediaRecorder.onstop`, `handleGenerateAudio`,
`handleTranslate`, `handleStartRecording`, `handleStopRecording`,
`handleDownloadAudio`, and the localStorage initialisation effect).

JS numbers are modelled as rationals where the source performs real
(IEEE double) arithmetic; on every value this development evaluates,
the double computation is exact, so the rational model is faithful.
Byte buffers are lists of naturals (each entry a byte value).
-/

namespace BanglaBridge

/-! ### JS numeric coercions (`DataView.setUint16` / `setUint32`)

`setUint16`/`setUint32` apply ToUint16/ToUint32: truncate the number
toward zero, then reduce modulo 2^16 / 2^32, and store little-endian.
All numbers stored by this application are non-negative, where
truncation toward zero coincides with the floor. -/

def jsFloorNat (q : ℚ) : ℕ := (⌊q⌋).toNat

def toUint32 (q : ℚ) : ℕ := jsFloorNat q % 2 ^ 32

def toUint16 (q : ℚ) : ℕ := jsFloorNat q % 2 ^ 16

/-- The two bytes written by `DataView.setUint16(_, v, true)` (little-endian). -/
def bytes2LE (v : ℕ) : List ℕ := [v % 256, v / 256 % 256]

/-- The four bytes written by `DataView.setUint32(_, v, true)` (little-endian). -/
def bytes4LE (v : ℕ) : List ℕ :=
  [v % 256, v / 256 % 256, v / 65536 % 256, v / 16777216 % 256]

/-- Byte of a buffer at an offset (out-of-range reads give 0). -/
def byteAt (l : List ℕ) (i : ℕ) : ℕ := l.getD i 0

/-- Read an unsigned 16-bit little-endian field at byte offset `i`. -/
def readU16LE (l : List ℕ) (i : ℕ) : ℕ := byteAt l i + 256 * byteAt l (i + 1)

/-- Read an unsigned 32-bit little-endian field at byte offset `i`. -/
def readU32LE (l : List ℕ) (i : ℕ) : ℕ :=
  byteAt l i + 256 * byteAt l (i + 1) + 65536 * byteAt l (i + 2) +
    16777216 * byteAt l (i + 3)

/-! ### `pcmToWavBlob` (src/utils.ts, lines 64–99)

The source allocates a buffer of `44 + dataSize` bytes and fills it with
consecutive disjoint writes at offsets 0,4,8,12,16,20,22,24,28,32,34,36,40
followed by the PCM bytes at offset 44; the buffer is therefore the
concatenation below.  `writeString` stores the code points of the ASCII
tags.  `blockAlign = numChannels * (bitsPerSample / 8)` and
`byteRate = sampleRate * blockAlign` are computed in JS double (here: ℚ)
arithmetic and truncated only when stored by `setUint16`/`setUint32`. -/

def pcmToWavBlob (pcmData : List ℕ)
    (sampleRate numChannels bitsPerSample : ℕ) : List ℕ :=
  let dataSize : ℕ := pcmData.length
  let blockAlign : ℚ := (numChannels : ℚ) * ((bitsPerSample : ℚ) / 8)
  let byteRate : ℚ := (sampleRate : ℚ) * blockAlign
  [82, 73, 70, 70]                                -- 'RIFF'
    ++ bytes4LE (toUint32 ((36 + dataSize : ℕ) : ℚ))  -- file size - 8
    ++ [87, 65, 86, 69]                           -- 'WAVE'
    ++ [102, 109, 116, 32]                        -- 'fmt '
    ++ bytes4LE (toUint32 16)                     -- sub-chunk size
    ++ bytes2LE (toUint16 1)                      -- audio format (PCM)
    ++ bytes2LE (toUint16 (numChannels : ℚ))
    ++ bytes4LE (toUint32 (sampleRate : ℚ))
    ++ bytes4LE (toUint32 byteRate)
    ++ bytes2LE (toUint16 blockAlign)
    ++ bytes2LE (toUint16 (bitsPerSample : ℚ))
    ++ [100, 97, 116, 97]                         -- 'data'
    ++ bytes4LE (toUint32 (dataSize : ℚ))
    ++ pcmData

theorem pcmToWavBlob_length (pcmData : List ℕ)
    (sr nc bps : ℕ) :
    (pcmToWavBlob pcmData sr nc bps).length = 44 + pcmData.length := by
  simp [pcmToWavBlob, bytes4LE, bytes2LE]
  omega

theorem toUint32_natCast (n : ℕ) : toUint32 (n : ℚ) = n % 2 ^ 32 := by
  simp [toUint32, jsFloorNat]

theorem toUint16_natCast (n : ℕ) : toUint16 (n : ℚ) = n % 2 ^ 16 := by
  simp [toUint16, jsFloorNat]

/-- With a byte-aligned bit depth, the JS double product
`numChannels * (bitsPerSample / 8)` is the natural number
`numChannels * (bitsPerSample / 8)` (the division now exact). -/
theorem wav_blockAlign_cast (nc bps : ℕ) (h : 8 ∣ bps) :
    (nc : ℚ) * ((bps : ℚ) / 8) = ((nc * (bps / 8) : ℕ) : ℚ) := by
  obtain ⟨k, rfl⟩ := h
  push_cast [Nat.mul_div_cancel_left k (by norm_num : 0 < 8)]
  ring

theorem wav_byteRate_cast (sr nc bps : ℕ) (h : 8 ∣ bps) :
    (sr : ℚ) * ((nc : ℚ) * ((bps : ℚ) / 8)) = ((sr * (nc * (bps / 8)) : ℕ) : ℚ) := by
  rw [wav_blockAlign_cast nc bps h]
  push_cast
  ring

theorem wav_field4 (pcm : List ℕ) (sr nc bps : ℕ) :
    readU32LE (pcmToWavBlob pcm sr nc bps) 4 = (36 + pcm.length) % 2 ^ 32 := by
  simp only [readU32LE, byteAt, pcmToWavBlob, bytes4LE, bytes2LE, toUint32_natCast,
    List.cons_append, List.nil_append]
  norm_num [List.getD]
  omega

theorem wav_field16 (pcm : List ℕ) (sr nc bps : ℕ) :
    readU32LE (pcmToWavBlob pcm sr nc bps) 16 = 16 := by
  simp only [readU32LE, byteAt, pcmToWavBlob, bytes4LE, bytes2LE,
    List.cons_append, List.nil_append]
  norm_num [List.getD, toUint32, jsFloorNat]
  decide

theorem wav_field20 (pcm : List ℕ) (sr nc bps : ℕ) :
    readU16LE (pcmToWavBlob pcm sr nc bps) 20 = 1 := by
  simp only [readU16LE, byteAt, pcmToWavBlob, bytes4LE, bytes2LE,
    List.cons_append, List.nil_append]
  norm_num [List.getD, toUint16, jsFloorNat]

theorem wav_field22 (pcm : List ℕ) (sr nc bps : ℕ) :
    readU16LE (pcmToWavBlob pcm sr nc bps) 22 = nc % 2 ^ 16 := by
  simp only [readU16LE, byteAt, pcmToWavBlob, bytes4LE, bytes2LE, toUint16_natCast,
    List.cons_append, List.nil_append]
  norm_num [List.getD]
  omega

theorem wav_field24 (pcm : List ℕ) (sr nc bps : ℕ) :
    readU32LE (pcmToWavBlob pcm sr nc bps) 24 = sr % 2 ^ 32 := by
  simp only [readU32LE, byteAt, pcmToWavBlob, bytes4LE, bytes2LE, toUint32_natCast,
    List.cons_append, List.nil_append]
  norm_num [List.getD]
  omega

theorem wav_field28 (pcm : List ℕ) (sr nc bps : ℕ) (h : 8 ∣ bps) :
    readU32LE (pcmToWavBlob pcm sr nc bps) 28 = sr * (nc * (bps / 8)) % 2 ^ 32 := by
  simp only [readU32LE, byteAt, pcmToWavBlob, bytes4LE, bytes2LE,
    wav_byteRate_cast sr nc bps h, toUint32_natCast,
    List.cons_append, List.nil_append]
  norm_num [List.getD]
  omega

theorem wav_field32 (pcm : List ℕ) (sr nc bps : ℕ) (h : 8 ∣ bps) :
    readU16LE (pcmToWavBlob pcm sr nc bps) 32 = nc * (bps / 8) % 2 ^ 16 := by
  simp only [readU16LE, byteAt, pcmToWavBlob, bytes4LE, bytes2LE,
    wav_blockAlign_cast nc bps h, toUint16_natCast,
    List.cons_append, List.nil_append]
  norm_num [List.getD]
  omega

theorem wav_field34 (pcm : List ℕ) (sr nc bps : ℕ) :
    readU16LE (pcmToWavBlob pcm sr nc bps) 34 = bps % 2 ^ 16 := by
  simp only [readU16LE, byteAt, pcmToWavBlob, bytes4LE, bytes2LE, toUint16_natCast,
    List.cons_append, List.nil_append]
  norm_num [List.getD]
  omega

theorem wav_field40 (pcm : List ℕ) (sr nc bps : ℕ) :
    readU32LE (pcmToWavBlob pcm sr nc bps) 40 = pcm.length % 2 ^ 32 := by
  simp only [readU32LE, byteAt, pcmToWavBlob, bytes4LE, bytes2LE, toUint32_natCast,
    List.cons_append, List.nil_append]
  norm_num [List.getD]
  omega

theorem wav_take4 (pcm : List ℕ) (sr nc bps : ℕ) :
    (pcmToWavBlob pcm sr nc bps).take 4 = [82, 73, 70, 70] := by
  simp only [pcmToWavBlob, bytes4LE, bytes2LE, List.cons_append, List.nil_append]
  norm_num [List.take]

theorem wav_tag8 (pcm : List ℕ) (sr nc bps : ℕ) :
    ((pcmToWavBlob pcm sr nc bps).drop 8).take 4 = [87, 65, 86, 69] := by
  simp only [pcmToWavBlob, bytes4LE, bytes2LE, List.cons_append, List.nil_append]
  norm_num [List.drop, List.take]

theorem wav_tag12 (pcm : List ℕ) (sr nc bps : ℕ) :
    ((pcmToWavBlob pcm sr nc bps).drop 12).take 4 = [102, 109, 116, 32] := by
  simp only [pcmToWavBlob, bytes4LE, bytes2LE, List.cons_append, List.nil_append]
  norm_num [List.drop, List.take]

theorem wav_tag36 (pcm : List ℕ) (sr nc bps : ℕ) :
    ((pcmToWavBlob pcm sr nc bps).drop 36).take 4 = [100, 97, 116, 97] := by
  simp only [pcmToWavBlob, bytes4LE, bytes2LE, List.cons_append, List.nil_append]
  norm_num [List.drop, List.take]

theorem wav_drop44 (pcm : List ℕ) (sr nc bps : ℕ) :
    (pcmToWavBlob pcm sr nc bps).drop 44 = pcm := by
  simp only [pcmToWavBlob, bytes4LE, bytes2LE, List.cons_append, List.nil_append]
  norm_num [List.drop]

/-- C1: for every PCM byte sequence and every sample rate, channel count and
(byte-aligned) bit depth whose derived header fields fit their field widths,
`pcmToWavBlob` yields a 44-byte header followed by the sample bytes verbatim,
with little-endian fields: RIFF chunk size = 36 + len(pcmData), fmt sub-chunk
size = 16, format code = 1, channel count, sample rate, byte rate =
sampleRate × channelCount × (bitsPerSample/8), block align =
channelCount × (bitsPerSample/8), bits per sample, and data size =
len(pcmData). -/
theorem C1_pcmToWavBlob_header (pcm : List ℕ) (sr nc bps : ℕ)
    (h8 : 8 ∣ bps)
    (hds : 36 + pcm.length < 2 ^ 32)
    (hsr : sr < 2 ^ 32)
    (hbr : sr * nc * (bps / 8) < 2 ^ 32)
    (hba : nc * (bps / 8) < 2 ^ 16)
    (hnc : nc < 2 ^ 16)
    (hbps : bps < 2 ^ 16) :
    (pcmToWavBlob pcm sr nc bps).length = 44 + pcm.length ∧
    (pcmToWavBlob pcm sr nc bps).drop 44 = pcm ∧
    (pcmToWavBlob pcm sr nc bps).take 4 = [82, 73, 70, 70] ∧
    readU32LE (pcmToWavBlob pcm sr nc bps) 4 = 36 + pcm.length ∧
    readU32LE (pcmToWavBlob pcm sr nc bps) 16 = 16 ∧
    readU16LE (pcmToWavBlob pcm sr nc bps) 20 = 1 ∧
    readU16LE (pcmToWavBlob pcm sr nc bps) 22 = nc ∧
    readU32LE (pcmToWavBlob pcm sr nc bps) 24 = sr ∧
    readU32LE (pcmToWavBlob pcm sr nc bps) 28 = sr * nc * (bps / 8) ∧
    readU16LE (pcmToWavBlob pcm sr nc bps) 32 = nc * (bps / 8) ∧
    readU16LE (pcmToWavBlob pcm sr nc bps) 34 = bps ∧
    readU32LE (pcmToWavBlob pcm sr nc bps) 40 = pcm.length := by
  refine ⟨pcmToWavBlob_length pcm sr nc bps, wav_drop44 pcm sr nc bps,
    wav_take4 pcm sr nc bps, ?_, wav_field16 pcm sr nc bps,
    wav_field20 pcm sr nc bps, ?_, ?_, ?_, ?_, ?_, ?_⟩
  · rw [wav_field4]; omega
  · rw [wav_field22]; omega
  · rw [wav_field24]; omega
  · rw [wav_field28 pcm sr nc bps h8, ← Nat.mul_assoc, Nat.mod_eq_of_lt hbr]
  · rw [wav_field32 pcm sr nc bps h8, Nat.mod_eq_of_lt hba]
  · rw [wav_field34]; omega
  · rw [wav_field40]; omega

theorem C1_pcmToWavBlob_header_witness :
    ((8 ∣ 16) ∧ 36 + ([1, 2, 3, 4] : List ℕ).length < 2 ^ 32 ∧ 24000 < 2 ^ 32 ∧
      24000 * 1 * (16 / 8) < 2 ^ 32 ∧ 1 * (16 / 8) < 2 ^ 16 ∧ 1 < 2 ^ 16 ∧
      16 < 2 ^ 16) ∧
    ((pcmToWavBlob [1, 2, 3, 4] 24000 1 16).length = 44 + ([1, 2, 3, 4] : List ℕ).length ∧
    (pcmToWavBlob [1, 2, 3, 4] 24000 1 16).drop 44 = [1, 2, 3, 4] ∧
    (pcmToWavBlob [1, 2, 3, 4] 24000 1 16).take 4 = [82, 73, 70, 70] ∧
    readU32LE (pcmToWavBlob [1, 2, 3, 4] 24000 1 16) 4 = 36 + ([1, 2, 3, 4] : List ℕ).length ∧
    readU32LE (pcmToWavBlob [1, 2, 3, 4] 24000 1 16) 16 = 16 ∧
    readU16LE (pcmToWavBlob [1, 2, 3, 4] 24000 1 16) 20 = 1 ∧
    readU16LE (pcmToWavBlob [1, 2, 3, 4] 24000 1 16) 22 = 1 ∧
    readU32LE (pcmToWavBlob [1, 2, 3, 4] 24000 1 16) 24 = 24000 ∧
    readU32LE (pcmToWavBlob [1, 2, 3, 4] 24000 1 16) 28 = 24000 * 1 * (16 / 8) ∧
    readU16LE (pcmToWavBlob [1, 2, 3, 4] 24000 1 16) 32 = 1 * (16 / 8) ∧
    readU16LE (pcmToWavBlob [1, 2, 3, 4] 24000 1 16) 34 = 16 ∧
    readU32LE (pcmToWavBlob [1, 2, 3, 4] 24000 1 16) 40 = ([1, 2, 3, 4] : List ℕ).length) :=
  ⟨⟨by decide, by decide, by decide, by decide, by decide, by decide, by decide⟩,
    C1_pcmToWavBlob_header [1, 2, 3, 4] 24000 1 16 (by decide) (by decide)
      (by decide) (by decide) (by decide) (by decide) (by decide)⟩

/-- C2: `pcmToWavBlob` applied to an empty sample sequence yields a container
of exactly 44 bytes whose data-size field (offset 40) is 0, with the RIFF
chunk size field 36, the four ASCII tags in place, fmt sub-chunk size 16,
format code 1, and the parameter fields carrying the given sample rate,
channel count and bit depth (reduced to their field widths). -/
theorem C2_pcmToWavBlob_empty (sr nc bps : ℕ) :
    (pcmToWavBlob [] sr nc bps).length = 44 ∧
    readU32LE (pcmToWavBlob [] sr nc bps) 40 = 0 ∧
    (pcmToWavBlob [] sr nc bps).take 4 = [82, 73, 70, 70] ∧
    readU32LE (pcmToWavBlob [] sr nc bps) 4 = 36 ∧
    ((pcmToWavBlob [] sr nc bps).drop 8).take 4 = [87, 65, 86, 69] ∧
    ((pcmToWavBlob [] sr nc bps).drop 12).take 4 = [102, 109, 116, 32] ∧
    readU32LE (pcmToWavBlob [] sr nc bps) 16 = 16 ∧
    readU16LE (pcmToWavBlob [] sr nc bps) 20 = 1 ∧
    ((pcmToWavBlob [] sr nc bps).drop 36).take 4 = [100, 97, 116, 97] ∧
    readU16LE (pcmToWavBlob [] sr nc bps) 22 = nc % 2 ^ 16 ∧
    readU32LE (pcmToWavBlob [] sr nc bps) 24 = sr % 2 ^ 32 ∧
    readU16LE (pcmToWavBlob [] sr nc bps) 34 = bps % 2 ^ 16 := by
  refine ⟨?_, ?_, wav_take4 [] sr nc bps, ?_, wav_tag8 [] sr nc bps,
    wav_tag12 [] sr nc bps, wav_field16 [] sr nc bps, wav_field20 [] sr nc bps,
    wav_tag36 [] sr nc bps, wav_field22 [] sr nc bps, wav_field24 [] sr nc bps,
    wav_field34 [] sr nc bps⟩
  · rw [pcmToWavBlob_length]; rfl
  · rw [wav_field40]; rfl
  · rw [wav_field4]; rfl

/-! ### `decodeAudioData` (src/utils.ts, lines 29–46)

`new Int16Array(data.buffer)` reinterprets the byte buffer as signed
16-bit little-endian values (the constructor rejects a buffer whose byte
length is odd, so a trailing odd byte cannot occur on the inputs the
claims quantify over; the model drops it).

The source computes `frameCount = dataInt16.length / numChannels` in JS
double arithmetic and passes it to `ctx.createBuffer`, whose length
argument is converted by truncation; the copy loop `i < frameCount` then
runs up to the possibly-fractional bound, but every store with
`i ≥ ⌊length/channels⌋` is an out-of-range `Float32Array` store, which is
discarded.  The produced buffer therefore holds, per channel,
exactly `dataInt16.length / numChannels` (truncating division) frames,
with `channelData[i] = dataInt16[i * numChannels + channel] / 32768`;
every index read in that range is in bounds. -/

def toInt16 (lo hi : ℕ) : ℤ :=
  if lo % 256 + 256 * (hi % 256) < 32768 then ((lo % 256 + 256 * (hi % 256) : ℕ) : ℤ)
  else ((lo % 256 + 256 * (hi % 256) : ℕ) : ℤ) - 65536

def bytesToInt16s : List ℕ → List ℤ
  | lo :: hi :: rest => toInt16 lo hi :: bytesToInt16s rest
  | _ => []

def decodeAudioData (data : List ℕ) (numChannels : ℕ) : List (List ℚ) :=
  let dataInt16 := bytesToInt16s data
  let frameCount := dataInt16.length / numChannels
  (List.range numChannels).map fun ch =>
    (List.range frameCount).map fun i =>
      ((dataInt16.getD (i * numChannels + ch) 0 : ℤ) : ℚ) / 32768

theorem bytesToInt16s_length (l : List ℕ) :
    (bytesToInt16s l).length = l.length / 2 := by
  induction l using bytesToInt16s.induct with
  | case1 lo hi rest ih => simp [bytesToInt16s, ih]; omega
  | case2 l h => cases l with
    | nil => simp [bytesToInt16s]
    | cons a t => cases t with
      | nil => simp [bytesToInt16s]
      | cons b t2 => exact absurd rfl (h a b t2)

theorem toInt16_range (lo hi : ℕ) : -32768 ≤ toInt16 lo hi ∧ toInt16 lo hi ≤ 32767 := by
  unfold toInt16
  split <;> omega

theorem bytesToInt16s_mem_range (l : List ℕ) :
    ∀ v ∈ bytesToInt16s l, -32768 ≤ v ∧ v ≤ 32767 := by
  induction l using bytesToInt16s.induct with
  | case1 lo hi rest ih =>
    intro v hv
    simp [bytesToInt16s] at hv
    rcases hv with rfl | hv
    · exact toInt16_range lo hi
    · exact ih v hv
  | case2 l h => cases l with
    | nil => simp [bytesToInt16s]
    | cons a t => cases t with
      | nil => simp [bytesToInt16s]
      | cons b t2 => exact absurd rfl (h a b t2)

theorem decode_chan_length (data : List ℕ) (c : ℕ) :
    ∀ chan ∈ decodeAudioData data c, chan.length = data.length / 2 / c := by
  intro chan hchan
  simp [decodeAudioData] at hchan
  obtain ⟨i, hi, rfl⟩ := hchan
  simp [bytesToInt16s_length]

theorem decode_mono_val (data : List ℕ) (i : ℕ) (hi : i < data.length / 2) :
    ((decodeAudioData data 1).getD 0 []).getD i 0 =
      (((bytesToInt16s data).getD i 0 : ℤ) : ℚ) / 32768 := by
  simp [decodeAudioData, bytesToInt16s_length, List.getD, List.getElem?_map,
    List.getElem?_range, hi]

theorem normalized_sample_bounds (v : ℤ) (h1 : -32768 ≤ v) (h2 : v ≤ 32767) :
    -1 ≤ (v : ℚ) / 32768 ∧ (v : ℚ) / 32768 < 1 := by
  have hv1 : (-32768 : ℚ) ≤ (v : ℚ) := by exact_mod_cast h1
  have hv2 : (v : ℚ) ≤ 32767 := by exact_mod_cast h2
  constructor
  · rw [le_div_iff₀ (by norm_num : (0:ℚ) < 32768)]
    linarith
  · rw [div_lt_one (by norm_num : (0:ℚ) < 32768)]
    linarith

theorem getD_int16_range (data : List ℕ) (k : ℕ) :
    -32768 ≤ (bytesToInt16s data).getD k 0 ∧ (bytesToInt16s data).getD k 0 ≤ 32767 := by
  rcases lt_or_ge k (bytesToInt16s data).length with hlt | hge
  · have hm : (bytesToInt16s data).getD k 0 ∈ bytesToInt16s data := by
      rw [List.getD_eq_getElem _ _ hlt]
      exact List.getElem_mem hlt
    exact bytesToInt16s_mem_range data _ hm
  · rw [List.getD_eq_default _ _ hge]
    norm_num

theorem decode_val_range (data : List ℕ) (c : ℕ) :
    ∀ chan ∈ decodeAudioData data c, ∀ q ∈ chan, -1 ≤ q ∧ q < 1 := by
  intro chan hchan q hq
  simp only [decodeAudioData, List.mem_map, List.mem_range] at hchan
  obtain ⟨ch, hch, rfl⟩ := hchan
  simp only [List.mem_map, List.mem_range] at hq
  obtain ⟨i, hi, rfl⟩ := hq
  exact normalized_sample_bounds _ (getD_int16_range data _).1 (getD_int16_range data _).2

/-- C3: on a byte sequence holding `N` interleaved signed 16-bit
little-endian samples, `decodeAudioData` yields in the mono case one
channel of exactly `N` values, the `i`-th equal to `rawSample_i / 32768`
and lying in `[-1, 1)`; and for every channel count `c`, each produced
channel holds `N / c` frames (truncating division). -/
theorem C3_decodeAudioData (data : List ℕ) (N c : ℕ) (hlen : data.length = 2 * N) :
    (decodeAudioData data 1).length = 1 ∧
    ((decodeAudioData data 1).getD 0 []).length = N ∧
    (∀ i, i < N → ((decodeAudioData data 1).getD 0 []).getD i 0 =
        (((bytesToInt16s data).getD i 0 : ℤ) : ℚ) / 32768) ∧
    (∀ q ∈ (decodeAudioData data 1).getD 0 [], -1 ≤ q ∧ q < 1) ∧
    ((decodeAudioData data c).length = c) ∧
    (∀ chan ∈ decodeAudioData data c, chan.length = N / c) := by
  have h2 : data.length / 2 = N := by omega
  refine ⟨by simp [decodeAudioData], ?_, ?_, ?_, by simp [decodeAudioData], ?_⟩
  · simp [decodeAudioData, bytesToInt16s_length, h2]
  · intro i hi
    apply decode_mono_val
    omega
  · intro q hq
    refine decode_val_range data 1 _ ?_ q hq
    have : (decodeAudioData data 1).length = 1 := by simp [decodeAudioData]
    rw [List.getD_eq_getElem _ _ (by omega)]
    exact List.getElem_mem (by omega)
  · intro chan hchan
    rw [decode_chan_length data c chan hchan, h2]

theorem C3_decodeAudioData_witness :
    ([0, 128, 255, 127] : List ℕ).length = 2 * 2 ∧
    ((decodeAudioData [0, 128, 255, 127] 1).length = 1 ∧
    ((decodeAudioData [0, 128, 255, 127] 1).getD 0 []).length = 2 ∧
    (∀ i, i < 2 → ((decodeAudioData [0, 128, 255, 127] 1).getD 0 []).getD i 0 =
        (((bytesToInt16s [0, 128, 255, 127]).getD i 0 : ℤ) : ℚ) / 32768) ∧
    (∀ q ∈ (decodeAudioData [0, 128, 255, 127] 1).getD 0 [], -1 ≤ q ∧ q < 1) ∧
    ((decodeAudioData [0, 128, 255, 127] 2).length = 2) ∧
    (∀ chan ∈ decodeAudioData [0, 128, 255, 127] 2, chan.length = 2 / 2)) :=
  ⟨by decide, C3_decodeAudioData [0, 128, 255, 127] 2 2 (by decide)⟩

/-! ### `decode` (src/utils.ts, lines 18–26)

`decode` calls `window.atob` and then copies the resulting binary
string's code units (= byte values) into a `Uint8Array` of the same
length; the copy loop is the identity on the byte sequence, so the
function is the byte-level base64 decoder.  `atob` is the platform's
forgiving-base64 decoder; it is modelled here on well-formed input
(groups of four alphabet characters with optional trailing `=`
padding), which is the only input the round-trip claim evaluates it on
(invalid input makes the browser primitive throw). -/

def b64Chars : List Char :=
  "ABCDEFGHIJKLMNOPQRSTUVWXYZabcdefghijklmnopqrstuvwxyz0123456789+/".data

def b64Char (n : ℕ) : Char := b64Chars.getD n 'A'

def b64Index (c : Char) : ℕ := b64Chars.indexOf c

/-- Modelled from the spec side of the claim: the standard base64
encoding of a byte sequence (RFC 4648, with `=` padding). -/
def base64Encode : List ℕ → List Char
  | [] => []
  | [a] => [b64Char (a / 4), b64Char (a % 4 * 16), '=', '=']
  | [a, b] => [b64Char (a / 4), b64Char (a % 4 * 16 + b / 16), b64Char (b % 16 * 4), '=']
  | a :: b :: c :: rest =>
    b64Char (a / 4) :: b64Char (a % 4 * 16 + b / 16) ::
      b64Char (b % 16 * 4 + c / 64) :: b64Char (c % 64) :: base64Encode rest

/-- The platform primitive `window.atob` on well-formed base64 text, producing the byte values of
the binary string. -/
def atobChars : List Char → List ℕ
  | c1 :: c2 :: c3 :: c4 :: rest =>
    if c3 = '=' then [b64Index c1 * 4 + b64Index c2 / 16]
    else if c4 = '=' then
      [b64Index c1 * 4 + b64Index c2 / 16, b64Index c2 % 16 * 16 + b64Index c3 / 4]
    else
      (b64Index c1 * 4 + b64Index c2 / 16) ::
        (b64Index c2 % 16 * 16 + b64Index c3 / 4) ::
        ((b64Index c3 % 4 * 64 + b64Index c4) :: atobChars rest)
  | _ => []

/-- Function `decode` from src/utils.ts: `atob`, then byte-for-byte copy. -/
def decode (base64 : String) : List ℕ := atobChars base64.data

theorem b64Index_b64Char (n : ℕ) (h : n < 64) : b64Index (b64Char n) = n := by
  revert h
  revert n
  decide

theorem b64Char_ne_pad (n : ℕ) : b64Char n ≠ '=' := by
  rcases lt_or_ge n 64 with h | h
  · revert h
    revert n
    decide
  · unfold b64Char
    rw [List.getD_eq_default]
    · decide
    · have : b64Chars.length = 64 := by decide
      omega

theorem atob_base64Encode (b : List ℕ) (hb : ∀ x ∈ b, x < 256) :
    atobChars (base64Encode b) = b := by
  revert hb
  induction b using base64Encode.induct with
  | case1 => intro hb; rfl
  | case2 a =>
    intro hb
    have ha : a < 256 := hb a (by simp)
    simp only [base64Encode, atobChars, if_pos rfl]
    rw [b64Index_b64Char _ (by omega), b64Index_b64Char _ (by omega)]
    simp
    omega
  | case3 a b =>
    intro hb
    have ha : a < 256 := hb a (by simp)
    have hb' : b < 256 := hb b (by simp)
    simp only [base64Encode, atobChars, if_neg (b64Char_ne_pad _), if_pos rfl]
    rw [b64Index_b64Char _ (by omega), b64Index_b64Char _ (by omega),
      b64Index_b64Char _ (by omega)]
    simp
    omega
  | case4 a b c rest ih =>
    intro hb
    have ha : a < 256 := hb a (by simp)
    have hb' : b < 256 := hb b (by simp)
    have hc : c < 256 := hb c (by simp)
    simp only [base64Encode, atobChars, if_neg (b64Char_ne_pad _)]
    rw [b64Index_b64Char _ (by omega), b64Index_b64Char _ (by omega),
      b64Index_b64Char _ (by omega), b64Index_b64Char _ (by omega),
      ih (fun x hx => hb x (by simp [hx]))]
    simp
    omega

/-- C10: the transport decoder `decode` is a left inverse of standard
base64 encoding: for every byte sequence `b` (values 0..255), decoding
the standard base64 encoding of `b` yields exactly `b`, and the output
length equals the decoded binary length. -/
theorem C10_decode_base64_roundtrip (b : List ℕ) (hb : ∀ x ∈ b, x < 256) :
    decode (String.mk (base64Encode b)) = b ∧
    (decode (String.mk (base64Encode b))).length = b.length := by
  have h : decode (String.mk (base64Encode b)) = b := atob_base64Encode b hb
  exact ⟨h, by rw [h]⟩

theorem C10_decode_base64_roundtrip_witness :
    (∀ x ∈ ([0, 255, 16, 7, 128] : List ℕ), x < 256) ∧
    (decode (String.mk (base64Encode [0, 255, 16, 7, 128])) = [0, 255, 16, 7, 128] ∧
      (decode (String.mk (base64Encode [0, 255, 16, 7, 128]))).length =
        ([0, 255, 16, 7, 128] : List ℕ).length) :=
  ⟨by decide, C10_decode_base64_roundtrip [0, 255, 16, 7, 128] (by decide)⟩

/-! ### Download filename (src/App.tsx, lines 663–664)

`targetLanguage.replace(/[^a-z0-9]/gi, '_')` replaces every character
outside ASCII `a-z`, `A-Z`, `0-9` by an underscore; `.toLowerCase()` then
lowercases.  After the replacement only ASCII alphanumerics and
underscores remain, on which JS and Lean lowercasing agree. -/

def jsReplaceNonAlnum (s : String) : String :=
  String.mk (s.data.map fun c => if c.isAlphanum then c else '_')

def jsToLowerCase (s : String) : String :=
  String.mk (s.data.map Char.toLower)

def safeTargetLanguage (s : String) : String :=
  jsToLowerCase (jsReplaceNonAlnum s)

def downloadFilename (targetLanguage : String) : String :=
  "translation_" ++ safeTargetLanguage targetLanguage ++ ".wav"

/-- Stated from the spec's words for comparison: replace every
non-alphanumeric character with an underscore, then lowercase the
result. -/
def specNormalize (s : String) : String :=
  String.mk ((s.data.map fun c => if c.isAlphanum then c else '_').map Char.toLower)

/-- C7: the download filename is `translation_` ++ normalize(targetLanguage)
++ `.wav`, where normalize replaces every non-alphanumeric character with an
underscore and lowercases; for the input `Chinese (Simplified)` the filename
is exactly `translation_chinese__simplified_.wav`. -/
theorem C7_download_filename :
    (∀ lang : String,
      downloadFilename lang = "translation_" ++ specNormalize lang ++ ".wav") ∧
    downloadFilename "Chinese (Simplified)" = "translation_chinese__simplified_.wav" := by
  refine ⟨fun lang => rfl, ?_⟩
  decide

/-! ### Application state and the React handlers (src/App.tsx)

The component state relevant to the verified handlers, with the browser
resources modelled explicitly: `currentAudioUrl`/`nextUrlId` model the
object-URL handle held in `currentAudioUrlRef` and the allocation of
fresh handles by `URL.createObjectURL`; `streamsAcquired` counts
microphone streams obtained from `getUserMedia`;
`mediaRecorderPresent` models `mediaRecorderRef.current` being non-null;
`audioChunks` is `audioChunksRef.current`.  Asynchronous collaborator
calls are passed as `Except` parameters: `.ok` a successful response,
`.error msg` a rejection carrying the thrown `Error`'s message (the
service layer in src/services/geminiService.ts always throws `Error`
objects). -/

structure AppState where
  inputText : String
  outputText : String
  phoneticText : String
  outputAudio : Option String
  isLoading : Bool
  loadingMessage : String
  error : Option String
  isRecording : Bool
  isPlayingAudio : Bool
  currentAudioUrl : Option ℕ
  nextUrlId : ℕ
  mediaRecorderPresent : Bool
  audioChunks : List (List ℕ)
  streamsAcquired : ℕ
deriving DecidableEq

/-- Handler `handleGenerateAudio` (src/App.tsx, lines 427–438): sets the loading
message, clears the audio, awaits `textToSpeech`, stores the audio on
success or sets an `Audio generation failed` error on rejection, and
finally clears the loading message.  Its `catch` swallows the failure, so
the caller continues normally. -/
def handleGenerateAudio (tts : Except String String) (s : AppState) : AppState :=
  let s1 := { s with loadingMessage := "Generating audio...", outputAudio := none }
  let s2 :=
    match tts with
    | .ok audio => { s1 with outputAudio := some audio }
    | .error msg => { s1 with error := some ("Audio generation failed: " ++ msg) }
  { s2 with loadingMessage := "" }

/-- Handler `handleTranslate` (src/App.tsx, lines 440–471): on non-blank input,
clears prior results, runs translate → phonetic → synthesis in sequence
(each stage's rejection aborts the rest; the synthesis stage handles its
own failure inside `handleGenerateAudio`), and finally resets the loading
state. -/
def jsTrim (s : String) : String :=
  String.mk ((s.data.dropWhile Char.isWhitespace).reverse.dropWhile Char.isWhitespace).reverse

def handleTranslate (textToTranslate : String)
    (translate phonetic tts : Except String String) (s : AppState) : AppState :=
  if jsTrim textToTranslate = "" then
    { s with outputText := "", outputAudio := none, phoneticText := "" }
  else
    let s1 := { s with isLoading := true, error := none, outputText := "",
                       outputAudio := none, phoneticText := "",
                       loadingMessage := "Translating..." }
    let s2 :=
      match translate with
      | .error msg => { s1 with error := some ("Translation failed: " ++ msg) }
      | .ok translated =>
        let s2a := { s1 with outputText := translated,
                             loadingMessage := "Generating pronunciation..." }
        match phonetic with
        | .error msg => { s2a with error := some ("Translation failed: " ++ msg) }
        | .ok ph => handleGenerateAudio tts { s2a with phoneticText := ph }
    { s2 with isLoading := false, loadingMessage := "" }

/-- Handler `handlePlayAudio` (src/App.tsx, lines 605–644): guarded by
`if (!outputAudio || isPlayingAudio) return;`.  Past the guard it marks
playback busy, revokes the previous object URL and creates a fresh one
for the new WAV blob; a rejected `audio.play()` (or a thrown decode
error) is caught, reported, and resets the busy flag. -/
def handlePlayAudio (playResult : Except String Unit) (s : AppState) : AppState :=
  if s.outputAudio = none ∨ s.isPlayingAudio = true then s
  else
    let s1 := { s with isPlayingAudio := true,
                       currentAudioUrl := some s.nextUrlId,
                       nextUrlId := s.nextUrlId + 1 }
    match playResult with
    | .ok _ => s1
    | .error msg =>
      { s1 with error := some ("Failed to play audio: " ++ msg),
                isPlayingAudio := false }

/-- C4: a playback request made while a playback is already in progress
(`isPlayingAudio` true) is a no-op: the state is unchanged, no
playable-resource handle is created or released, and the in-progress
playback's resource handle is untouched. -/
theorem C4_handlePlayAudio_busy (s : AppState) (r : Except String Unit)
    (h : s.isPlayingAudio = true) :
    handlePlayAudio r s = s ∧
    (handlePlayAudio r s).currentAudioUrl = s.currentAudioUrl ∧
    (handlePlayAudio r s).nextUrlId = s.nextUrlId ∧
    (handlePlayAudio r s).isPlayingAudio = s.isPlayingAudio := by
  have heq : handlePlayAudio r s = s := by
    unfold handlePlayAudio
    rw [if_pos (Or.inr h)]
  exact ⟨heq, by rw [heq], by rw [heq], by rw [heq]⟩

theorem C4_handlePlayAudio_busy_witness :
    (AppState.isPlayingAudio
        ⟨"", "", "", some "QUJD", false, "", none, false, true, some 5, 6, false, [], 0⟩ = true) ∧
    (handlePlayAudio (.ok ())
        ⟨"", "", "", some "QUJD", false, "", none, false, true, some 5, 6, false, [], 0⟩ =
      ⟨"", "", "", some "QUJD", false, "", none, false, true, some 5, 6, false, [], 0⟩ ∧
    (handlePlayAudio (.ok ())
        ⟨"", "", "", some "QUJD", false, "", none, false, true, some 5, 6, false, [], 0⟩).currentAudioUrl =
      AppState.currentAudioUrl
        ⟨"", "", "", some "QUJD", false, "", none, false, true, some 5, 6, false, [], 0⟩ ∧
    (handlePlayAudio (.ok ())
        ⟨"", "", "", some "QUJD", false, "", none, false, true, some 5, 6, false, [], 0⟩).nextUrlId =
      AppState.nextUrlId
        ⟨"", "", "", some "QUJD", false, "", none, false, true, some 5, 6, false, [], 0⟩ ∧
    (handlePlayAudio (.ok ())
        ⟨"", "", "", some "QUJD", false, "", none, false, true, some 5, 6, false, [], 0⟩).isPlayingAudio =
      AppState.isPlayingAudio
        ⟨"", "", "", some "QUJD", false, "", none, false, true, some 5, 6, false, [], 0⟩) :=
  ⟨by decide,
    C4_handlePlayAudio_busy
      ⟨"", "", "", some "QUJD", false, "", none, false, true, some 5, 6, false, [], 0⟩
      (.ok ()) (by decide)⟩

/-- Result of the `mediaRecorder.onstop` handler (src/App.tsx, lines
567–589): the updated component state together with the effects on the
capture resources and whether the transcription collaborator was
invoked. -/
structure StopOutcome where
  state : AppState
  streamStopped : Bool
  animationCancelled : Bool
  contextClosed : Bool
  transcribeCalled : Bool
deriving DecidableEq

/-- Handler `mediaRecorder.onstop`: stops the stream tracks, cancels the
visualizer animation frame when one is registered, closes the audio
context, concatenates the accumulated chunks, and — only when the blob
is non-empty — invokes the transcription collaborator, storing its text
or reporting a stage-labelled failure.  `hasAnimationFrame` models
`visualizerAnimationRef.current` being non-null. -/
def recorderOnStop (hasAnimationFrame : Bool)
    (transcribe : Except String String) (s : AppState) : StopOutcome :=
  let blobSize := (s.audioChunks.map List.length).sum
  if blobSize = 0 then
    ⟨s, true, hasAnimationFrame, true, false⟩
  else
    let s1 := { s with loadingMessage := "Transcribing...", isLoading := true }
    let s2 :=
      match transcribe with
      | .ok t => { s1 with inputText := t }
      | .error msg =>
        { s1 with error := some ("Transcription failed: " ++ msg),
                  outputText := "", outputAudio := none }
    ⟨{ s2 with isLoading := false, loadingMessage := "" },
      true, hasAnimationFrame, true, true⟩

/-- C5: stopping a capture session whose accumulated chunks concatenate to
zero bytes releases the stream, cancels the rendering loop and closes the
audio context, and returns without invoking the transcription
collaborator and without changing `inputText`, the loading state or the
error state — the component state is left exactly as it was. -/
theorem C5_onstop_empty_blob (s : AppState) (tr : Except String String)
    (h : (s.audioChunks.map List.length).sum = 0) :
    (recorderOnStop true tr s).state = s ∧
    (recorderOnStop true tr s).streamStopped = true ∧
    (recorderOnStop true tr s).animationCancelled = true ∧
    (recorderOnStop true tr s).contextClosed = true ∧
    (recorderOnStop true tr s).transcribeCalled = false ∧
    (recorderOnStop true tr s).state.inputText = s.inputText ∧
    (recorderOnStop true tr s).state.isLoading = s.isLoading ∧
    (recorderOnStop true tr s).state.loadingMessage = s.loadingMessage ∧
    (recorderOnStop true tr s).state.error = s.error := by
  have heq : recorderOnStop true tr s = ⟨s, true, true, true, false⟩ := by
    unfold recorderOnStop
    rw [if_pos h]
  rw [heq]
  exact ⟨rfl, rfl, rfl, rfl, rfl, rfl, rfl, rfl, rfl⟩

theorem C5_onstop_empty_blob_witness :
    ((AppState.audioChunks
        ⟨"abc", "x", "y", none, false, "", none, false, false, none, 0, true, [], 1⟩).map
          List.length).sum = 0 ∧
    ((recorderOnStop true (.ok "hello")
        ⟨"abc", "x", "y", none, false, "", none, false, false, none, 0, true, [], 1⟩).state =
      ⟨"abc", "x", "y", none, false, "", none, false, false, none, 0, true, [], 1⟩ ∧
    (recorderOnStop true (.ok "hello")
        ⟨"abc", "x", "y", none, false, "", none, false, false, none, 0, true, [], 1⟩).streamStopped = true ∧
    (recorderOnStop true (.ok "hello")
        ⟨"abc", "x", "y", none, false, "", none, false, false, none, 0, true, [], 1⟩).animationCancelled = true ∧
    (recorderOnStop true (.ok "hello")
        ⟨"abc", "x", "y", none, false, "", none, false, false, none, 0, true, [], 1⟩).contextClosed = true ∧
    (recorderOnStop true (.ok "hello")
        ⟨"abc", "x", "y", none, false, "", none, false, false, none, 0, true, [], 1⟩).transcribeCalled = false ∧
    (recorderOnStop true (.ok "hello")
        ⟨"abc", "x", "y", none, false, "", none, false, false, none, 0, true, [], 1⟩).state.inputText =
      AppState.inputText ⟨"abc", "x", "y", none, false, "", none, false, false, none, 0, true, [], 1⟩ ∧
    (recorderOnStop true (.ok "hello")
        ⟨"abc", "x", "y", none, false, "", none, false, false, none, 0, true, [], 1⟩).state.isLoading =
      AppState.isLoading ⟨"abc", "x", "y", none, false, "", none, false, false, none, 0, true, [], 1⟩ ∧
    (recorderOnStop true (.ok "hello")
        ⟨"abc", "x", "y", none, false, "", none, false, false, none, 0, true, [], 1⟩).state.loadingMessage =
      AppState.loadingMessage ⟨"abc", "x", "y", none, false, "", none, false, false, none, 0, true, [], 1⟩ ∧
    (recorderOnStop true (.ok "hello")
        ⟨"abc", "x", "y", none, false, "", none, false, false, none, 0, true, [], 1⟩).state.error =
      AppState.error ⟨"abc", "x", "y", none, false, "", none, false, false, none, 0, true, [], 1⟩) :=
  ⟨by decide,
    C5_onstop_empty_blob
      ⟨"abc", "x", "y", none, false, "", none, false, false, none, 0, true, [], 1⟩
      (.ok "hello") (by decide)⟩

/-- C6: when translation and phonetic transcription succeed and speech
synthesis fails within one `handleTranslate` run, the translated text and
phonetic text remain set to the successful stages' results, the playable
audio is `none`, and the surfaced error message begins with
`Audio generation failed` (concretely, it is
`Audio generation failed: ` followed by the failure message). -/
theorem C6_synthesis_failure (s : AppState) (text t p msg : String)
    (htext : ¬ jsTrim text = "") :
    (handleTranslate text (.ok t) (.ok p) (.error msg) s).outputText = t ∧
    (handleTranslate text (.ok t) (.ok p) (.error msg) s).phoneticText = p ∧
    (handleTranslate text (.ok t) (.ok p) (.error msg) s).outputAudio = none ∧
    (handleTranslate text (.ok t) (.ok p) (.error msg) s).error =
      some ("Audio generation failed: " ++ msg) ∧
    (handleTranslate text (.ok t) (.ok p) (.error msg) s).isLoading = false ∧
    (handleTranslate text (.ok t) (.ok p) (.error msg) s).loadingMessage = "" := by
  unfold handleTranslate handleGenerateAudio
  rw [if_neg htext]
  exact ⟨rfl, rfl, rfl, rfl, rfl, rfl⟩

theorem C6_synthesis_failure_witness :
    ¬ (jsTrim "hi" = "") ∧
    ((handleTranslate "hi" (.ok "salut") (.ok "sah-loo") (.error "boom")
        ⟨"hi", "", "", none, false, "", none, false, false, none, 0, false, [], 0⟩).outputText = "salut" ∧
    (handleTranslate "hi" (.ok "salut") (.ok "sah-loo") (.error "boom")
        ⟨"hi", "", "", none, false, "", none, false, false, none, 0, false, [], 0⟩).phoneticText = "sah-loo" ∧
    (handleTranslate "hi" (.ok "salut") (.ok "sah-loo") (.error "boom")
        ⟨"hi", "", "", none, false, "", none, false, false, none, 0, false, [], 0⟩).outputAudio = none ∧
    (handleTranslate "hi" (.ok "salut") (.ok "sah-loo") (.error "boom")
        ⟨"hi", "", "", none, false, "", none, false, false, none, 0, false, [], 0⟩).error =
      some ("Audio generation failed: " ++ "boom") ∧
    (handleTranslate "hi" (.ok "salut") (.ok "sah-loo") (.error "boom")
        ⟨"hi", "", "", none, false, "", none, false, false, none, 0, false, [], 0⟩).isLoading = false ∧
    (handleTranslate "hi" (.ok "salut") (.ok "sah-loo") (.error "boom")
        ⟨"hi", "", "", none, false, "", none, false, false, none, 0, false, [], 0⟩).loadingMessage = "") :=
  ⟨by decide,
    C6_synthesis_failure
      ⟨"hi", "", "", none, false, "", none, false, false, none, 0, false, [], 0⟩
      "hi" "salut" "sah-loo" "boom" (by decide)⟩

/-- Handler `handleStartRecording` (src/App.tsx, lines 541–596): guarded by
`if (isRecording) return;`.  Past the guard it awaits `getUserMedia`,
on success acquires the stream and the audio/analyser context, clears
the input, resets the chunk buffer and enters the recording state; a
rejection reports a permission error and leaves recording off. -/
def handleStartRecording (getUserMedia : Except String Unit) (s : AppState) : AppState :=
  if s.isRecording = true then s
  else
    match getUserMedia with
    | .error msg =>
      { s with error := some ("Microphone access denied: " ++ msg),
               isRecording := false }
    | .ok _ =>
      { s with streamsAcquired := s.streamsAcquired + 1,
               isRecording := true,
               error := none,
               inputText := "",
               mediaRecorderPresent := true,
               audioChunks := [] }

/-- Handler `handleStopRecording` (src/App.tsx, lines 598–603): only when a
recorder exists and a recording is active does it stop the recorder and
leave the recording state. -/
def handleStopRecording (s : AppState) : AppState :=
  if s.mediaRecorderPresent = true ∧ s.isRecording = true then
    { s with isRecording := false }
  else s

/-- C8: starting a capture session while one is already active is a
no-op that changes no state and acquires no duplicate resources, and
stopping while no capture is active is likewise a no-op. -/
theorem C8_capture_session_guards (s s' : AppState) (g : Except String Unit)
    (hs : s.isRecording = true) (hs' : s'.isRecording = false) :
    handleStartRecording g s = s ∧
    (handleStartRecording g s).streamsAcquired = s.streamsAcquired ∧
    handleStopRecording s' = s' := by
  have h1 : handleStartRecording g s = s := by
    unfold handleStartRecording
    rw [if_pos hs]
  refine ⟨h1, by rw [h1], ?_⟩
  unfold handleStopRecording
  rw [if_neg]
  simp [hs']

theorem C8_capture_session_guards_witness :
    AppState.isRecording
        ⟨"", "", "", none, false, "", none, true, false, none, 0, true, [[1]], 1⟩ = true ∧
    AppState.isRecording
        ⟨"", "", "", none, false, "", none, false, false, none, 0, true, [], 0⟩ = false ∧
    (handleStartRecording (.ok ())
        ⟨"", "", "", none, false, "", none, true, false, none, 0, true, [[1]], 1⟩ =
      ⟨"", "", "", none, false, "", none, true, false, none, 0, true, [[1]], 1⟩ ∧
    (handleStartRecording (.ok ())
        ⟨"", "", "", none, false, "", none, true, false, none, 0, true, [[1]], 1⟩).streamsAcquired =
      AppState.streamsAcquired
        ⟨"", "", "", none, false, "", none, true, false, none, 0, true, [[1]], 1⟩ ∧
    handleStopRecording
        ⟨"", "", "", none, false, "", none, false, false, none, 0, true, [], 0⟩ =
      ⟨"", "", "", none, false, "", none, false, false, none, 0, true, [], 0⟩) :=
  ⟨by decide, by decide,
    C8_capture_session_guards
      ⟨"", "", "", none, false, "", none, true, false, none, 0, true, [[1]], 1⟩
      ⟨"", "", "", none, false, "", none, false, false, none, 0, true, [], 0⟩
      (.ok ()) (by decide) (by decide)⟩

/-! ### localStorage initialisation (src/App.tsx, lines 369–382)

`useState` starts `usageCount` at 0 and `subscriptionPlan` at FREE.  The
mount effect reads both keys; a truthy (non-null, non-empty) usage
string is fed to `parseInt(storedUsage, 10)` and stored unconditionally,
and the plan string is adopted only when it is one of the three known
tier names.  `Option ℤ` models the JS number, `none` standing for NaN. -/

def digitsVal (ds : List Char) : ℕ :=
  ds.foldl (fun acc c => acc * 10 + (c.toNat - 48)) 0

def jsParseIntCore (sign : ℤ) (cs : List Char) : Option ℤ :=
  let ds := cs.takeWhile Char.isDigit
  if ds.isEmpty then none else some (sign * (digitsVal ds : ℤ))

/-- JS `parseInt(s, 10)`: skip leading whitespace, read an optional sign
and then the longest leading digit run; NaN (`none`) when no digits
follow. -/
def jsParseInt10 (s : String) : Option ℤ :=
  match s.data.dropWhile Char.isWhitespace with
  | '-' :: rest => jsParseIntCore (-1) rest
  | '+' :: rest => jsParseIntCore 1 rest
  | cs => jsParseIntCore 1 cs

structure PersistedState where
  usageCount : Option ℤ
  subscriptionPlan : String
deriving DecidableEq

/-- The mount effect of src/App.tsx, lines 369–382, as a function of the
two stored values (`none` = key absent). -/
def initFromStorage (storedUsage storedPlan : Option String) : PersistedState :=
  let usage : Option ℤ :=
    match storedUsage with
    | none => some 0
    | some u => if u = "" then some 0 else jsParseInt10 u
  let plan : String :=
    match storedPlan with
    | none => "FREE"
    | some p =>
      if p = "" then "FREE"
      else if p = "FREE" ∨ p = "PREMIUM" ∨ p = "PRO" then p else "FREE"
  ⟨usage, plan⟩

/-- C9 counterexample: the stored usage value `"abc"` is present and
invalid (not a numeric string), yet the loaded usage is `parseInt`'s NaN
(modelled `none`), not the claimed default 0. -/
theorem C9_counterexample :
    ¬ (initFromStorage (some "abc") none).usageCount = some 0 := by
  decide

/-- C9 (amended): on startup the persisted usage and tier are read from
local storage; an absent or empty usage string defaults to 0, while a
present non-empty usage string is handed to `parseInt(_, 10)` — an
invalid one therefore loads as NaN (or as its leading digit-prefix
value), not as 0; the plan defaults to FREE whenever the stored value is
absent or not one of the known tier names, and is adopted when it is. -/
theorem C9_storage_defaults (u p bad : String)
    (hu : ¬ u = "")
    (hp : p = "FREE" ∨ p = "PREMIUM" ∨ p = "PRO")
    (hbad : ¬ (bad = "" ∨ bad = "FREE" ∨ bad = "PREMIUM" ∨ bad = "PRO")) :
    (initFromStorage none none).usageCount = some 0 ∧
    (initFromStorage (some "") none).usageCount = some 0 ∧
    (initFromStorage (some u) none).usageCount = jsParseInt10 u ∧
    (initFromStorage none none).subscriptionPlan = "FREE" ∧
    (initFromStorage none (some p)).subscriptionPlan = p ∧
    (initFromStorage none (some bad)).subscriptionPlan = "FREE" := by
  refine ⟨rfl, rfl, ?_, rfl, ?_, ?_⟩
  · simp [initFromStorage, hu]
  · have hpne : ¬ p = "" := by rcases hp with h | h | h <;> simp [h]
    simp [initFromStorage, hpne, hp]
  · push_neg at hbad
    obtain ⟨h0, h1, h2, h3⟩ := hbad
    simp [initFromStorage, h0, h1, h2, h3]

theorem C9_storage_defaults_witness :
    (¬ ("12abc" : String) = "" ∧
      (("PRO" : String) = "FREE" ∨ ("PRO" : String) = "PREMIUM" ∨ ("PRO" : String) = "PRO") ∧
      ¬ (("GOLD" : String) = "" ∨ ("GOLD" : String) = "FREE" ∨
          ("GOLD" : String) = "PREMIUM" ∨ ("GOLD" : String) = "PRO")) ∧
    ((initFromStorage none none).usageCount = some 0 ∧
    (initFromStorage (some "") none).usageCount = some 0 ∧
    (initFromStorage (some "12abc") none).usageCount = jsParseInt10 "12abc" ∧
    (initFromStorage none none).subscriptionPlan = "FREE" ∧
    (initFromStorage none (some "PRO")).subscriptionPlan = "PRO" ∧
    (initFromStorage none (some "GOLD")).subscriptionPlan = "FREE") :=
  ⟨⟨by decide, by decide, by decide⟩,
    C9_storage_defaults "12abc" "PRO" "GOLD" (by decide) (by decide) (by decide)⟩

end BanglaBridge
